import Mathlib

/-!
Verification of the databench signal-dispatch and session layer.

The repository ships two Python source files: `databench/app.py` (server
construction and analysis registration) and `analyses_packaged/dummypi.py`
(a sample analysis).  The core signal/session library (`databench.Signals`,
`databench.Analysis`, the dispatcher) is not part of the visible source
tree; where a definition embeds that missing layer it is modelled from the
specification and its doc comment says so explicitly.  All other
definitions are shallow embeddings of the Python source.
-/

namespace Databench

/-- Payload values carried by events: JSON-like scalars.  Python floats in
`dummypi.py` arise only from ratios of small integers and from `random()`
draws; they are modelled as rationals. -/
inductive Val where
  | num (q : ℚ)
  | str (s : String)
  deriving DecidableEq

/-- An event payload: a mapping from string keys to values, as the dicts
passed to `signals.emit` in the source. -/
abbrev Payload := List (String × Val)

/-- An event: `(eventName, payload)`. -/
abbrev Event := String × Payload

/-- Predicate selecting events with a given name. -/
def isName (nm : String) (e : Event) : Bool := e.1 == nm

namespace Dummypi

/-- One Monte-Carlo draw lands inside the unit circle: embeds the test
`r1*r1 + r2*r2 < 1.0` from `dummypi.onconnect` (line 16). -/
def hit (d : ℚ × ℚ) : Bool := decide (d.1 * d.1 + d.2 * d.2 < 1)

/-- Value of the accumulator `inside` after `n` iterations of the loop in
`dummypi.onconnect`, given the stream `r` of random draws (`r n` is the
pair `(r1, r2)` drawn in iteration `n`). -/
def insideAfter (r : ℕ → ℚ × ℚ) : ℕ → ℕ
  | 0 => 0
  | n + 1 => insideAfter r n + (if hit (r n) then 1 else 0)

/-- Events emitted by iteration `i` of the loop in `dummypi.onconnect`
(lines 19-33): one `log` and one `status` event when `(i+1) % 100 == 0`,
nothing otherwise.  `sqrtF` models the external float function `math.sqrt`
as an opaque rational function; no claim depends on its values. -/
def iterEmits (sqrtF : ℚ → ℚ) (r : ℕ → ℚ × ℚ) (i : ℕ) : List Event :=
  if (i + 1) % 100 = 0 then
    let draws : ℕ := i + 1
    let inside : ℕ := insideAfter r (i + 1)
    let p : ℚ := (inside : ℚ) / (draws : ℚ)
    let uncertainty : ℚ := 4 * sqrtF ((draws : ℚ) * p * (1 - p)) / (draws : ℚ)
    [("log", [("draws", Val.num draws), ("inside", Val.num inside),
              ("r1", Val.num (r i).1), ("r2", Val.num (r i).2)]),
     ("status", [("pi-estimate", Val.num (4 * (inside : ℚ) / (draws : ℚ))),
                 ("pi-uncertainty", Val.num uncertainty)])]
  else []

/-- Concatenated emissions of the first `n` loop iterations of
`dummypi.onconnect`, in program order. -/
def loopEmits (sqrtF : ℚ → ℚ) (r : ℕ → ℚ × ℚ) (n : ℕ) : List Event :=
  (List.range n).flatMap (iterEmits sqrtF r)

/-- The final emission of `dummypi.onconnect` (line 35). -/
def doneEvent : Event := ("log", [("action", Val.str "done")])

/-- The complete emission trace of one run of `dummypi.onconnect`: the
10000-iteration loop followed by the final `log` event. -/
def onconnect (sqrtF : ℚ → ℚ) (r : ℕ → ℚ × ℚ) : List Event :=
  loopEmits sqrtF r 10000 ++ [doneEvent]

end Dummypi

/-- Connection identifiers are opaque ids; modelled as naturals. -/
abbrev ConnId := ℕ

/-- Modelled from the spec (§2, §6; the Transport Adapter and the emit
routing live in `databench/analysis.py`, which is not in the source tree):
the transport-visible world, holding the open connections and the ordered
log of outbound sends `(connectionId, event)`. -/
structure World where
  openConns : List ConnId
  sent : List (ConnId × Event)

/-- Modelled from the spec (§4.2): session lifecycle states. -/
inductive SessionState where
  | created
  | running
  | completed
  | failed
  | abandoned
  deriving DecidableEq

/-- Modelled from the spec (§3): a Session is one live
`(connectionId, analysisName)` pair. -/
structure Session where
  connectionId : ConnId
  analysisName : String
  state : SessionState

/-- Modelled from the spec (§4.2 `Session.emit`; `databench/analysis.py`
is not in the source tree): forward one event to the Transport Adapter
tagged with the connectionId of the session; a closed connection makes
emit a no-op and never an error. -/
def emit (w : World) (cid : ConnId) (e : Event) : World :=
  if cid ∈ w.openConns then { w with sent := w.sent ++ [(cid, e)] } else w

/-- Modelled from the spec (§4.2): deliver the emit calls of a handler one
by one, in call order. -/
def deliverAll (w : World) (cid : ConnId) : List Event → World
  | [] => w
  | e :: es => deliverAll (emit w cid e) cid es

/-- Modelled from the spec (§4.1): the only observable behaviour of a
handler is the ordered sequence of its emit calls followed by returning
normally or raising; `run payload = (emits, raised)`. -/
structure Handler where
  run : Payload → List Event × Bool

/-- Modelled from the spec (§3, §4.1): per-analysis registry mapping event
names to the ordered sequence of registered handlers; kept as the flat
registration list, in registration order. -/
structure SignalRegistry where
  analysisName : String
  handlers : List (String × Handler)

/-- Modelled from the spec (§4.1 `register`): append a handler for an
event name. -/
def register (reg : SignalRegistry) (ev : String) (h : Handler) : SignalRegistry :=
  { reg with handlers := reg.handlers ++ [(ev, h)] }

/-- Handlers registered for an event name, in registration order. -/
def handlersFor (reg : SignalRegistry) (ev : String) : List Handler :=
  (reg.handlers.filter (fun q => q.1 == ev)).map (fun q => q.2)

/-- Modelled from the spec (§7 `HandlerFailure`): the sanitized `error`
event sent back to the originating connection when a handler raises. -/
def sanitizedError : Event := ("error", [("message", Val.str "handler failed")])

/-- Modelled from the spec (§4.2, §7): one handler invocation.  Its emits
are delivered in call order through the emit binding of the session; a
raising handler moves the session to FAILED and produces one sanitized
`error` event (delivered only if the connection is still open, since
`emit` swallows sends to closed connections); a normal return moves it to
COMPLETED. -/
def invokeHandler (w : World) (s : Session) (h : Handler) (p : Payload) :
    World × Session :=
  if (h.run p).2 then
    (emit (deliverAll w s.connectionId (h.run p).1) s.connectionId sanitizedError,
     { s with state := SessionState.failed })
  else
    (deliverAll w s.connectionId (h.run p).1,
     { s with state := SessionState.completed })

/-- Modelled from the spec (§4.1 `dispatch`, §4.3 step 4): invoke the
given handlers in order, threading the world and the session; also returns
the invocation log `(handler, emit-binding connectionId, payload)` in
invocation order. -/
def runHandlers (p : Payload) :
    List Handler → World → Session → World × Session × List (Handler × ConnId × Payload)
  | [], w, s => (w, s, [])
  | h :: hs, w, s =>
    let r1 := invokeHandler w s h p
    let rest := runHandlers p hs r1.1 r1.2
    (rest.1, rest.2.1, (h, s.connectionId, p) :: rest.2.2)

/-- Modelled from the spec (§4.1): dispatch an event to every handler
registered for it, in registration order. -/
def dispatch (reg : SignalRegistry) (ev : String) (w : World) (s : Session)
    (p : Payload) : World × Session × List (Handler × ConnId × Payload) :=
  runHandlers p (handlersFor reg ev) w s

/-- Modelled from the spec (§4.3): the server-side state threaded through
inbound messages. -/
structure ServerState where
  world : World
  sessions : List Session

/-- Modelled from the spec (§4.3 step 2): get or lazily create the Session
for a `(connectionId, analysisName)` pair. -/
def getOrCreate (st : ServerState) (cid : ConnId) (an : String) :
    Session × ServerState :=
  match st.sessions.find? (fun s => s.connectionId == cid && s.analysisName == an) with
  | some s => (s, st)
  | none =>
    (⟨cid, an, SessionState.created⟩,
     { st with sessions := st.sessions ++ [⟨cid, an, SessionState.created⟩] })

/-- Replace the stored Session for a `(connectionId, analysisName)` pair. -/
def updateSession (ss : List Session) (cid : ConnId) (an : String)
    (s1 : Session) : List Session :=
  ss.map (fun s => if s.connectionId == cid && s.analysisName == an then s1 else s)

/-- Modelled from the spec (§4.3 `onDisconnect`): the connection closes
and every Session it owns moves to ABANDONED; in-flight handlers are not
interrupted, their later emits die in `emit`. -/
def onDisconnect (st : ServerState) (cid : ConnId) : ServerState :=
  { world := { openConns := st.world.openConns.filter (fun c => !(c == cid)),
               sent := st.world.sent },
    sessions := st.sessions.map
      (fun s => if s.connectionId == cid
                then { s with state := SessionState.abandoned } else s) }

/-- Modelled from the spec (§4.3 `onMessage`, §6): route one inbound
message.  An unknown analysis is logged and dropped; `disconnect` is
interpreted by the dispatcher itself; every other event name (including
the session-creating `connect`) goes to the registry of the analysis via
`dispatch`, after get-or-create of the Session. -/
def onMessage (cat : List SignalRegistry) (st : ServerState) (cid : ConnId)
    (an ev : String) (p : Payload) : ServerState :=
  match cat.find? (fun reg => reg.analysisName == an) with
  | none => st
  | some reg =>
    if ev = "disconnect" then onDisconnect st cid
    else
      let gc := getOrCreate st cid an
      let res := dispatch reg ev gc.2.world gc.1 p
      { world := res.1, sessions := updateSession gc.2.sessions cid an res.2.1 }

/-- The registration made by `dummypi.py` line 10: `onconnect` is the
handler for the `connect` event; one invocation emits the whole trace of
`Dummypi.onconnect` and returns normally. -/
def dummypiHandler (sqrtF : ℚ → ℚ) (r : ℕ → ℚ × ℚ) : Handler :=
  ⟨fun _ => (Dummypi.onconnect sqrtF r, false)⟩

namespace AppPy

/-- One entry of the analysis catalog `LIST_ALL` as `app.py` consumes it:
a name and an opaque flask blueprint object (identified by a number). -/
structure AnalysisMod where
  name : String
  blueprintId : ℕ

/-- The flask application state mutated by `app.py`: the ordered list of
`register_blueprint` calls, as `(blueprintId, mount path)` pairs. -/
structure FlaskState where
  blueprints : List (ℕ × String)

/-- The registration-relevant state of a databench `App`: the flask
blueprint registrations, whether the single shared SocketIO transport has
been created (`App.register_analyses` line 143), and the ordered list of
analyses whose signal registry was bound to it via `set_socket_io`
(lines 144-146). -/
structure AppState where
  flask : FlaskState
  socketAttached : Bool
  signalsBound : List String

/-- The first loop of `App.register_analyses` (lines 135-141): mount each
analysis blueprint under the path `"/" ++ name`. -/
def register_blueprints : List AnalysisMod → AppState → AppState
  | [], a => a
  | an :: la, a =>
    register_blueprints la
      { a with flask := ⟨a.flask.blueprints ++ [(an.blueprintId, "/" ++ an.name)]⟩ }

/-- The second loop of `App.register_analyses` (lines 144-146): bind the
signal registry of each analysis to the shared SocketIO transport. -/
def bind_signals : List AnalysisMod → AppState → AppState
  | [], a => a
  | an :: la, a =>
    bind_signals la { a with signalsBound := a.signalsBound ++ [an.name] }

/-- `App.register_analyses` (lines 132-146): register all blueprints,
create the single SocketIO transport, bind every registry to it. -/
def register_analyses (la : List AnalysisMod) (a : AppState) : AppState :=
  bind_signals la { register_blueprints la a with socketAttached := true }

/-- The registration effects of `App.__init__` (lines 35-63): starts from
an empty flask app and runs `register_analyses` over the catalog before
the constructor returns, hence before `App.run` can be called. -/
def App_init (la : List AnalysisMod) : AppState :=
  register_analyses la ⟨⟨[]⟩, false, []⟩

/-- `App.run` (lines 65-70) only hands the flask app to the transport run
loop; it performs no further registration, so it leaves the registration
state unchanged. -/
def App_run (a : AppState) : AppState := a

/-- The message printed by `App.import_analyses` when the analyses module
has no `__author__` attribute (lines 108, 126). -/
def authorMissingMsg : String := "Analyses module does not have an author string."

/-- The message printed by `App.import_analyses` when the analyses module
has no `__version__` attribute (lines 112, 130). -/
def versionMissingMsg : String := "Analyses module does not have a version string."

/-- A Python module as `App.import_analyses` reads it: docstring, and the
optional attributes `__author__` and `__version__` (absence of an
attribute raises AttributeError in Python, modelled by `none`). -/
structure PyModule where
  doc : Option String
  author : Option String
  version : Option String

/-- The environment of `App.import_analyses`: importing `analyses` either
succeeds with a module or raises ImportError (`none`); the packaged
fallback module `analyses_packaged` ships with databench and its own
loading always succeeds. -/
structure ImportEnv where
  analyses : Option PyModule
  analyses_packaged : PyModule

/-- The fields of `App` assigned by `import_analyses`, with the log of
printed messages; `description`, `analyses_author` and `analyses_version`
are initialised to `None` in `App.__init__` (lines 48-50). -/
structure ImportState where
  description : Option String
  analyses_author : Option String
  analyses_version : Option String
  printed : List String

/-- The initial field values set by `App.__init__` lines 48-50. -/
def initialImportState : ImportState := ⟨none, none, none, []⟩

/-- The body shared by both branches of `App.import_analyses`
(lines 104-112 and 122-130): assign the docstring, then try to read
`__author__` and `__version__`, catching each AttributeError by printing
a message and leaving the field at its previous value. -/
def readModuleMeta (m : PyModule) (st : ImportState) : ImportState :=
  let st1 : ImportState := { st with description := m.doc }
  let st2 : ImportState :=
    match m.author with
    | some a => { st1 with analyses_author := some a }
    | none => { st1 with printed := st1.printed ++ [authorMissingMsg] }
  match m.version with
  | some v => { st2 with analyses_version := some v }
  | none => { st2 with printed := st2.printed ++ [versionMissingMsg] }

/-- `App.import_analyses` (lines 98-130): try to read the `analyses`
module; on ImportError print diagnostics and fall back to
`analyses_packaged`.  The result is `Except.ok` in every case because
both the AttributeError handlers and the ImportError handler catch their
exception. -/
def import_analyses (env : ImportEnv) (st : ImportState) : Except String ImportState :=
  match env.analyses with
  | some m => Except.ok (readModuleMeta m st)
  | none =>
    Except.ok (readModuleMeta env.analyses_packaged
      { st with printed := st.printed ++ ["Did not find analyses module.",
                                          "Using packaged analyses."] })

end AppPy

/-- Concrete input for witnesses: a sqrt model that returns zero. -/
def sqrt0 : ℚ → ℚ := fun _ => 0

/-- Concrete input for witnesses: every draw is `(0, 0)`, which always
lands inside the unit circle. -/
def rng0 : ℕ → ℚ × ℚ := fun _ => (0, 0)

/-- Concrete world with the single open connection `0` and no sends. -/
def w0 : World := ⟨[0], []⟩

/-- Concrete session on connection `0` for the dummypi analysis. -/
def s0 : Session := ⟨0, "dummypi", SessionState.created⟩

/-- Concrete handler emitting one `pong` event and returning normally. -/
def hPing : Handler := ⟨fun _ => ([("pong", [])], false)⟩

/-- Concrete handler that emits one `log` event and then raises. -/
def hBoom : Handler := ⟨fun _ => ([("log", [("x", Val.num 1)])], true)⟩

/-- Concrete registry for the analysis `demo` with one `ping` handler. -/
def reg0 : SignalRegistry := ⟨"demo", [("ping", hPing)]⟩

/-- Concrete session A on connection `0`. -/
def sA0 : Session := ⟨0, "demo", SessionState.created⟩

/-- Concrete session B on connection `1`. -/
def sB0 : Session := ⟨1, "demo", SessionState.created⟩

/-- Concrete world with connections `0` and `1` open and one prior send
to connection `1`. -/
def w1 : World := ⟨[0, 1], [(1, ("seed", []))]⟩

/-- Concrete catalog holding only `reg0`. -/
def cat0 : List SignalRegistry := [reg0]

/-- Concrete server state over `w1` with no sessions yet. -/
def st0 : ServerState := ⟨w1, []⟩

/-- The `status` payload emitted by dummypi at iteration 99 under `sqrt0`
and `rng0`: all 100 draws inside, so the estimate is exactly 4. -/
def pay99 : Payload := [("pi-estimate", Val.num 4), ("pi-uncertainty", Val.num 0)]

/-- Concrete import environment: `import analyses` fails, the packaged
module has a docstring but neither author nor version. -/
def env0 : AppPy.ImportEnv := ⟨none, ⟨some "Packaged analyses.", none, none⟩⟩

namespace Dummypi

lemma loopEmits_succ (sqrtF : ℚ → ℚ) (r : ℕ → ℚ × ℚ) (n : ℕ) :
    loopEmits sqrtF r (n + 1) = loopEmits sqrtF r n ++ iterEmits sqrtF r n := by
  unfold loopEmits
  rw [List.range_succ, List.flatMap_append]
  simp

lemma countP_iterEmits_log (sqrtF : ℚ → ℚ) (r : ℕ → ℚ × ℚ) (n : ℕ) :
    (iterEmits sqrtF r n).countP (isName "log")
      = if (n + 1) % 100 = 0 then 1 else 0 := by
  unfold iterEmits
  by_cases h : (n + 1) % 100 = 0 <;>
    simp [h, isName, List.countP_cons]

lemma countP_iterEmits_status (sqrtF : ℚ → ℚ) (r : ℕ → ℚ × ℚ) (n : ℕ) :
    (iterEmits sqrtF r n).countP (isName "status")
      = if (n + 1) % 100 = 0 then 1 else 0 := by
  unfold iterEmits
  by_cases h : (n + 1) % 100 = 0 <;>
    simp [h, isName, List.countP_cons]

lemma countP_loopEmits_log (sqrtF : ℚ → ℚ) (r : ℕ → ℚ × ℚ) :
    ∀ n, (loopEmits sqrtF r n).countP (isName "log") = n / 100
  | 0 => by simp [loopEmits]
  | n + 1 => by
      rw [loopEmits_succ, List.countP_append, countP_loopEmits_log sqrtF r n,
        countP_iterEmits_log, Nat.succ_div]
      simp [Nat.dvd_iff_mod_eq_zero]

lemma countP_loopEmits_status (sqrtF : ℚ → ℚ) (r : ℕ → ℚ × ℚ) :
    ∀ n, (loopEmits sqrtF r n).countP (isName "status") = n / 100
  | 0 => by simp [loopEmits]
  | n + 1 => by
      rw [loopEmits_succ, List.countP_append, countP_loopEmits_status sqrtF r n,
        countP_iterEmits_status, Nat.succ_div]
      simp [Nat.dvd_iff_mod_eq_zero]

lemma insideAfter_le (r : ℕ → ℚ × ℚ) : ∀ n, insideAfter r n ≤ n
  | 0 => le_refl 0
  | n + 1 => by
      unfold insideAfter
      have h := insideAfter_le r n
      split <;> omega

end Dummypi

lemma insideAfter_rng0 : ∀ n, Dummypi.insideAfter rng0 n = n
  | 0 => rfl
  | n + 1 => by
      unfold Dummypi.insideAfter
      rw [insideAfter_rng0 n]
      have hh : Dummypi.hit (rng0 n) = true := by
        unfold Dummypi.hit rng0
        norm_num
      rw [hh]
      simp

lemma emit_openConns (w : World) (cid : ConnId) (e : Event) :
    (emit w cid e).openConns = w.openConns := by
  unfold emit; split <;> rfl

lemma emit_closed (w : World) (cid : ConnId) (e : Event)
    (h : cid ∉ w.openConns) : emit w cid e = w := by
  unfold emit; rw [if_neg h]

lemma deliverAll_openConns (cid : ConnId) :
    ∀ (es : List Event) (w : World), (deliverAll w cid es).openConns = w.openConns
  | [], _ => rfl
  | e :: es, w => by
      unfold deliverAll
      rw [deliverAll_openConns cid es (emit w cid e), emit_openConns]

lemma deliverAll_closed (cid : ConnId) :
    ∀ (es : List Event) (w : World), cid ∉ w.openConns → deliverAll w cid es = w
  | [], _, _ => rfl
  | e :: es, w, h => by
      unfold deliverAll
      rw [emit_closed w cid e h, deliverAll_closed cid es w h]

lemma deliverAll_open (cid : ConnId) :
    ∀ (es : List Event) (w : World), cid ∈ w.openConns →
      (deliverAll w cid es).sent = w.sent ++ es.map (fun e => (cid, e))
  | [], w, _ => by simp [deliverAll]
  | e :: es, w, h => by
      unfold deliverAll
      rw [deliverAll_open cid es (emit w cid e)
          (by rw [emit_openConns]; exact h)]
      unfold emit
      rw [if_pos h]
      simp

lemma emit_sent_mem (w : World) (cid : ConnId) (e : Event) (x : ConnId × Event)
    (hx : x ∈ (emit w cid e).sent) : x ∈ w.sent ∨ x.1 = cid := by
  unfold emit at hx
  split at hx
  · simp at hx
    rcases hx with hx | hx
    · exact Or.inl hx
    · right; rw [hx]
  · exact Or.inl hx

lemma deliverAll_sent_mem (cid : ConnId) :
    ∀ (es : List Event) (w : World) (x : ConnId × Event),
      x ∈ (deliverAll w cid es).sent → x ∈ w.sent ∨ x.1 = cid
  | [], _, _, hx => Or.inl hx
  | e :: es, w, x, hx => by
      unfold deliverAll at hx
      rcases deliverAll_sent_mem cid es (emit w cid e) x hx with h | h
      · exact emit_sent_mem w cid e x h
      · exact Or.inr h

lemma invokeHandler_cid (w : World) (s : Session) (h : Handler) (p : Payload) :
    (invokeHandler w s h p).2.connectionId = s.connectionId := by
  unfold invokeHandler; split <;> rfl

lemma invokeHandler_openConns (w : World) (s : Session) (h : Handler) (p : Payload) :
    (invokeHandler w s h p).1.openConns = w.openConns := by
  unfold invokeHandler
  split
  · rw [emit_openConns, deliverAll_openConns]
  · rw [deliverAll_openConns]

lemma invokeHandler_sent_mem (w : World) (s : Session) (h : Handler) (p : Payload)
    (x : ConnId × Event) (hx : x ∈ (invokeHandler w s h p).1.sent) :
    x ∈ w.sent ∨ x.1 = s.connectionId := by
  unfold invokeHandler at hx
  split at hx
  · rcases emit_sent_mem _ _ _ x hx with h1 | h1
    · exact deliverAll_sent_mem _ _ _ x h1
    · exact Or.inr h1
  · exact deliverAll_sent_mem _ _ _ x hx

lemma invokeHandler_sent_open (w : World) (s : Session) (h : Handler) (p : Payload)
    (hopen : s.connectionId ∈ w.openConns) :
    (invokeHandler w s h p).1.sent
      = w.sent ++ (h.run p).1.map (fun e => (s.connectionId, e))
        ++ (if (h.run p).2 then [(s.connectionId, sanitizedError)] else []) := by
  have hopen2 : s.connectionId ∈ (deliverAll w s.connectionId (h.run p).1).openConns := by
    rw [deliverAll_openConns]; exact hopen
  unfold invokeHandler
  cases hb : (h.run p).2 with
  | false =>
    simp only [hb, Bool.false_eq_true, if_false]
    rw [deliverAll_open s.connectionId (h.run p).1 w hopen, List.append_nil]
  | true =>
    simp only [hb, if_true]
    unfold emit
    rw [if_pos hopen2]
    dsimp only
    rw [deliverAll_open s.connectionId (h.run p).1 w hopen]

lemma runHandlers_log (p : Payload) :
    ∀ (hs : List Handler) (w : World) (s : Session),
      (runHandlers p hs w s).2.2 = hs.map (fun h => (h, s.connectionId, p))
  | [], _, _ => rfl
  | h :: hs, w, s => by
      unfold runHandlers
      dsimp only
      rw [runHandlers_log p hs (invokeHandler w s h p).1 (invokeHandler w s h p).2,
        invokeHandler_cid]
      rfl

lemma runHandlers_sent_mem (p : Payload) :
    ∀ (hs : List Handler) (w : World) (s : Session) (x : ConnId × Event),
      x ∈ (runHandlers p hs w s).1.sent → x ∈ w.sent ∨ x.1 = s.connectionId
  | [], _, _, _, hx => Or.inl hx
  | h :: hs, w, s, x, hx => by
      unfold runHandlers at hx
      dsimp only at hx
      rcases runHandlers_sent_mem p hs (invokeHandler w s h p).1
          (invokeHandler w s h p).2 x hx with h1 | h1
      · exact invokeHandler_sent_mem w s h p x h1
      · rw [invokeHandler_cid] at h1
        exact Or.inr h1

lemma dispatch_invoked (reg : SignalRegistry) (ev : String) (w : World)
    (s : Session) (p : Payload) :
    (dispatch reg ev w s p).2.2
      = (handlersFor reg ev).map (fun h => (h, s.connectionId, p)) :=
  runHandlers_log p (handlersFor reg ev) w s

lemma dispatch_sent_mem (reg : SignalRegistry) (ev : String) (w : World)
    (s : Session) (p : Payload) (x : ConnId × Event)
    (hx : x ∈ (dispatch reg ev w s p).1.sent) :
    x ∈ w.sent ∨ x.1 = s.connectionId :=
  runHandlers_sent_mem p (handlersFor reg ev) w s x hx

lemma dispatch_no_handlers (reg : SignalRegistry) (ev : String) (w : World)
    (s : Session) (p : Payload) (hno : handlersFor reg ev = []) :
    dispatch reg ev w s p = (w, s, []) := by
  unfold dispatch
  rw [hno]
  rfl

lemma getOrCreate_world (st : ServerState) (cid : ConnId) (an : String) :
    (getOrCreate st cid an).2.world = st.world := by
  unfold getOrCreate
  split <;> rfl

namespace AppPy

lemma register_blueprints_eq :
    ∀ (la : List AnalysisMod) (a : AppState),
      register_blueprints la a =
        { a with flask :=
            ⟨a.flask.blueprints ++ la.map (fun an => (an.blueprintId, "/" ++ an.name))⟩ }
  | [], a => by simp [register_blueprints]
  | an :: la, a => by
      unfold register_blueprints
      rw [register_blueprints_eq la]
      simp

lemma bind_signals_eq :
    ∀ (la : List AnalysisMod) (a : AppState),
      bind_signals la a =
        { a with signalsBound := a.signalsBound ++ la.map (fun an => an.name) }
  | [], a => by simp [bind_signals]
  | an :: la, a => by
      unfold bind_signals
      rw [bind_signals_eq la]
      simp

lemma readModuleMeta_fields (m : PyModule) (st : ImportState) :
    (m.author = none →
        (readModuleMeta m st).analyses_author = st.analyses_author ∧
        authorMissingMsg ∈ (readModuleMeta m st).printed) ∧
    (m.version = none →
        (readModuleMeta m st).analyses_version = st.analyses_version ∧
        versionMissingMsg ∈ (readModuleMeta m st).printed) ∧
    (readModuleMeta m st).description = m.doc := by
  unfold readModuleMeta
  cases ha : m.author <;> cases hv : m.version <;>
    simp [List.mem_append]

end AppPy

/-- C1: a single run of the registered `connect` handler of the analysis
`dummypi` emits, to the originating connection only and in emission order,
the loop trace containing exactly 100 `log` events and exactly 100
`status` events (one of each after every 100 of the 10000 iterations),
terminated by a final `log` event with payload `action = done`. -/
theorem dummypi_connect_trace (sqrtF : ℚ → ℚ) (r : ℕ → ℚ × ℚ)
    (w : World) (s : Session) (p : Payload)
    (hopen : s.connectionId ∈ w.openConns) :
    (invokeHandler w s (dummypiHandler sqrtF r) p).1.sent
        = w.sent ++ (Dummypi.onconnect sqrtF r).map (fun e => (s.connectionId, e)) ∧
    Dummypi.onconnect sqrtF r
        = Dummypi.loopEmits sqrtF r 10000 ++ [("log", [("action", Val.str "done")])] ∧
    (Dummypi.loopEmits sqrtF r 10000).countP (isName "log") = 100 ∧
    (Dummypi.loopEmits sqrtF r 10000).countP (isName "status") = 100 := by
  refine ⟨?_, rfl, ?_, ?_⟩
  · rw [invokeHandler_sent_open w s (dummypiHandler sqrtF r) p hopen]
    have hrun : (dummypiHandler sqrtF r).run p = (Dummypi.onconnect sqrtF r, false) := rfl
    rw [hrun]
    simp
  · rw [Dummypi.countP_loopEmits_log]
  · rw [Dummypi.countP_loopEmits_status]

/-- Witness for C1 at a concrete world, session and random stream. -/
theorem dummypi_connect_trace_witness :
    s0.connectionId ∈ w0.openConns ∧
    ((invokeHandler w0 s0 (dummypiHandler sqrt0 rng0) []).1.sent
        = w0.sent ++ (Dummypi.onconnect sqrt0 rng0).map (fun e => (s0.connectionId, e)) ∧
      Dummypi.onconnect sqrt0 rng0
        = Dummypi.loopEmits sqrt0 rng0 10000 ++ [("log", [("action", Val.str "done")])] ∧
      (Dummypi.loopEmits sqrt0 rng0 10000).countP (isName "log") = 100 ∧
      (Dummypi.loopEmits sqrt0 rng0 10000).countP (isName "status") = 100) :=
  ⟨by decide, dummypi_connect_trace sqrt0 rng0 w0 s0 [] (by decide)⟩

/-- C2: dispatching an event invokes every handler registered for that
event name exactly once, in registration order, each invocation receiving
the emit binding of the session (its connectionId) and the payload. -/
theorem dispatch_invokes_in_order (reg : SignalRegistry) (ev : String)
    (w : World) (s : Session) (p : Payload) :
    (dispatch reg ev w s p).2.2
      = (handlersFor reg ev).map (fun h => (h, s.connectionId, p)) :=
  dispatch_invoked reg ev w s p

/-- C3: session isolation — any event in the transport log after a
dispatch for session A that is tagged with the connection of a different
session B was already in the log before the dispatch; emits never cross
connection boundaries. -/
theorem session_isolation (reg : SignalRegistry) (ev : String) (w : World)
    (sA sB : Session) (p : Payload)
    (hne : sB.connectionId ≠ sA.connectionId) :
    ∀ x ∈ (dispatch reg ev w sA p).1.sent,
      x.1 = sB.connectionId → x ∈ w.sent := by
  intro x hx hB
  rcases dispatch_sent_mem reg ev w sA p x hx with h | h
  · exact h
  · exact absurd (hB.symm.trans h) hne

/-- Witness for C3 at concrete sessions on connections 0 and 1. -/
theorem session_isolation_witness :
    sB0.connectionId ≠ sA0.connectionId ∧
    (∀ x ∈ (dispatch reg0 "ping" w1 sA0 []).1.sent,
      x.1 = sB0.connectionId → x ∈ w1.sent) :=
  ⟨by decide, session_isolation reg0 "ping" w1 sA0 sB0 [] (by decide)⟩

/-- C4: once the owning connection is closed, an emit for that session is
a no-op — it is discarded without delivery and without error, and so is a
whole sequence of late emits. -/
theorem emit_after_close_noop (w : World) (cid : ConnId) (e : Event)
    (es : List Event) (hclosed : cid ∉ w.openConns) :
    emit w cid e = w ∧ deliverAll w cid es = w :=
  ⟨emit_closed w cid e hclosed, deliverAll_closed cid es w hclosed⟩

/-- Witness for C4: connection 2 is not open in `w0`. -/
theorem emit_after_close_noop_witness :
    ((2 : ConnId) ∉ w0.openConns) ∧
    (emit w0 2 ("log", []) = w0 ∧ deliverAll w0 2 [("log", [])] = w0) :=
  ⟨by decide, emit_after_close_noop w0 2 ("log", []) [("log", [])] (by decide)⟩

/-- C5: a raising handler moves its Session to FAILED, appends exactly one
sanitized `error` event for the originating (open) connection after the
emits the handler made before raising, leaves the set of open connections
unchanged, and afterwards dispatch on any other session still invokes all
of its handlers. -/
theorem handler_failure_isolated (w : World) (s : Session) (h : Handler)
    (p : Payload) (hraises : (h.run p).2 = true)
    (hopen : s.connectionId ∈ w.openConns) :
    (invokeHandler w s h p).2.state = SessionState.failed ∧
    (invokeHandler w s h p).1.sent
      = w.sent ++ (h.run p).1.map (fun e => (s.connectionId, e))
        ++ [(s.connectionId, sanitizedError)] ∧
    (invokeHandler w s h p).1.openConns = w.openConns ∧
    ∀ (reg : SignalRegistry) (ev : String) (s2 : Session) (p2 : Payload),
      (dispatch reg ev (invokeHandler w s h p).1 s2 p2).2.2
        = (handlersFor reg ev).map (fun h2 => (h2, s2.connectionId, p2)) := by
  refine ⟨?_, ?_, invokeHandler_openConns w s h p,
    fun reg ev s2 p2 => dispatch_invoked reg ev _ s2 p2⟩
  · unfold invokeHandler
    rw [if_pos hraises]
  · rw [invokeHandler_sent_open w s h p hopen, hraises]
    simp

/-- Witness for C5 with the concrete raising handler `hBoom`. -/
theorem handler_failure_isolated_witness :
    (hBoom.run []).2 = true ∧ s0.connectionId ∈ w0.openConns ∧
    ((invokeHandler w0 s0 hBoom []).2.state = SessionState.failed ∧
     (invokeHandler w0 s0 hBoom []).1.sent
       = w0.sent ++ (hBoom.run []).1.map (fun e => (s0.connectionId, e))
         ++ [(s0.connectionId, sanitizedError)] ∧
     (invokeHandler w0 s0 hBoom []).1.openConns = w0.openConns ∧
     ∀ (reg : SignalRegistry) (ev : String) (s2 : Session) (p2 : Payload),
       (dispatch reg ev (invokeHandler w0 s0 hBoom []).1 s2 p2).2.2
         = (handlersFor reg ev).map (fun h2 => (h2, s2.connectionId, p2))) :=
  ⟨rfl, by decide, handler_failure_isolated w0 s0 hBoom [] rfl (by decide)⟩

/-- C6: an inbound event whose name (other than the reserved `connect` and
`disconnect`) has no registered handler in the target registry leaves the
transport world untouched: zero emitted events and no error. -/
theorem unknown_event_noop (cat : List SignalRegistry) (st : ServerState)
    (cid : ConnId) (an ev : String) (p : Payload) (reg : SignalRegistry)
    (hfind : cat.find? (fun q => q.analysisName == an) = some reg)
    (hc : ev ≠ "connect") (hd : ev ≠ "disconnect")
    (hno : handlersFor reg ev = []) :
    (onMessage cat st cid an ev p).world = st.world := by
  unfold onMessage
  rw [hfind]
  dsimp only
  rw [if_neg hd]
  dsimp only
  rw [dispatch_no_handlers reg ev _ _ p hno]
  exact getOrCreate_world st cid an

/-- Witness for C6: the event `nope` is unknown to `reg0`. -/
theorem unknown_event_noop_witness :
    cat0.find? (fun q => q.analysisName == "demo") = some reg0 ∧
    ("nope" : String) ≠ "connect" ∧ ("nope" : String) ≠ "disconnect" ∧
    handlersFor reg0 "nope" = [] ∧
    (onMessage cat0 st0 0 "demo" "nope" []).world = st0.world :=
  ⟨rfl, by decide, by decide, rfl,
    unknown_event_noop cat0 st0 0 "demo" "nope" [] reg0 rfl (by decide) (by decide) rfl⟩

/-- C7: within one handler invocation on an open connection, the emitted
events reach the Transport Adapter exactly in the order the emit calls
were made (followed, only for a raising handler, by the one `error`
event); no reordering occurs. -/
theorem emit_order_preserved (w : World) (s : Session) (h : Handler)
    (p : Payload) (hopen : s.connectionId ∈ w.openConns) :
    (invokeHandler w s h p).1.sent
      = w.sent ++ (h.run p).1.map (fun e => (s.connectionId, e))
        ++ (if (h.run p).2 then [(s.connectionId, sanitizedError)] else []) :=
  invokeHandler_sent_open w s h p hopen

/-- Witness for C7 with the concrete handler `hPing` on open connection 0. -/
theorem emit_order_preserved_witness :
    s0.connectionId ∈ w0.openConns ∧
    (invokeHandler w0 s0 hPing []).1.sent
      = w0.sent ++ (hPing.run []).1.map (fun e => (s0.connectionId, e))
        ++ (if (hPing.run []).2 then [(s0.connectionId, sanitizedError)] else []) :=
  ⟨by decide, emit_order_preserved w0 s0 hPing [] (by decide)⟩

/-- C8: `App` construction registers every analysis of the catalog exactly
once — the blueprints are mounted in catalog order under `"/" ++ name`,
the signal registry of each analysis is bound to the single shared
SocketIO transport created during construction — and `App.run` performs no
further registration. -/
theorem analyses_registered_once (la : List AppPy.AnalysisMod) :
    (AppPy.App_init la).flask.blueprints
        = la.map (fun an => (an.blueprintId, "/" ++ an.name)) ∧
    (AppPy.App_init la).signalsBound = la.map (fun an => an.name) ∧
    (AppPy.App_init la).socketAttached = true ∧
    AppPy.App_run (AppPy.App_init la) = AppPy.App_init la := by
  unfold AppPy.App_init AppPy.App_run AppPy.register_analyses
  rw [AppPy.bind_signals_eq, AppPy.register_blueprints_eq]
  exact ⟨by simp, by simp, rfl, rfl⟩

/-- C9: in the dummypi connect handler every division happens at an
emission point where the divisor `draws = i + 1` is at least 100 and the
invariant `inside ≤ draws` holds, so every emitted `status` event carries
a pi-estimate in the closed interval `[0, 4]`. -/
theorem dummypi_estimate_bounds (sqrtF : ℚ → ℚ) (r : ℕ → ℚ × ℚ) :
    (∀ i : ℕ, Dummypi.iterEmits sqrtF r i ≠ [] →
        100 ≤ i + 1 ∧ Dummypi.insideAfter r (i + 1) ≤ i + 1) ∧
    (∀ pay : Payload, ("status", pay) ∈ Dummypi.onconnect sqrtF r →
        ∃ q : ℚ, ("pi-estimate", Val.num q) ∈ pay ∧ 0 ≤ q ∧ q ≤ 4) := by
  have hbound : ∀ i : ℕ,
      (0 : ℚ) ≤ 4 * (Dummypi.insideAfter r (i + 1) : ℚ) / ((i + 1 : ℕ) : ℚ) ∧
      4 * (Dummypi.insideAfter r (i + 1) : ℚ) / ((i + 1 : ℕ) : ℚ) ≤ 4 := by
    intro i
    have hpos : (0 : ℚ) < ((i + 1 : ℕ) : ℚ) := by
      exact_mod_cast Nat.succ_pos i
    have hle : (Dummypi.insideAfter r (i + 1) : ℚ) ≤ ((i + 1 : ℕ) : ℚ) := by
      exact_mod_cast Dummypi.insideAfter_le r (i + 1)
    have hnn : (0 : ℚ) ≤ (Dummypi.insideAfter r (i + 1) : ℚ) := by positivity
    constructor
    · positivity
    · rw [div_le_iff₀ hpos]
      linarith
  constructor
  · intro i hne
    unfold Dummypi.iterEmits at hne
    by_cases hc : (i + 1) % 100 = 0
    · exact ⟨Nat.le_of_dvd (Nat.succ_pos i) (Nat.dvd_of_mod_eq_zero hc),
        Dummypi.insideAfter_le r (i + 1)⟩
    · rw [if_neg hc] at hne
      exact absurd rfl hne
  · intro pay hmem
    unfold Dummypi.onconnect at hmem
    rcases List.mem_append.mp hmem with hm | hm
    · unfold Dummypi.loopEmits at hm
      rcases List.mem_flatMap.mp hm with ⟨i, _hi, hmi⟩
      unfold Dummypi.iterEmits at hmi
      by_cases hc : (i + 1) % 100 = 0
      · rw [if_pos hc] at hmi
        dsimp only at hmi
        rcases List.mem_cons.mp hmi with he | he
        · exact absurd he (by simp)
        · rcases List.mem_cons.mp he with he2 | he2
          · have hpay := congrArg Prod.snd he2
            dsimp only at hpay
            subst hpay
            exact ⟨4 * (Dummypi.insideAfter r (i + 1) : ℚ) / ((i + 1 : ℕ) : ℚ),
              List.mem_cons_self _ _, (hbound i).1, (hbound i).2⟩
          · exact absurd he2 (List.not_mem_nil _)
      · rw [if_neg hc] at hmi
        exact absurd hmi (List.not_mem_nil _)
    · exact absurd hm (by simp [Dummypi.doneEvent])

/-- Witness for C9: the emission at iteration 99 under `sqrt0` and `rng0`
is nonempty and its `status` payload carries the estimate 4. -/
theorem dummypi_estimate_bounds_witness :
    (100 ≤ 99 + 1 ∧ Dummypi.insideAfter rng0 (99 + 1) ≤ 99 + 1) ∧
    (∃ q : ℚ, ("pi-estimate", Val.num q) ∈ pay99 ∧ 0 ≤ q ∧ q ≤ 4) := by
  have hne : Dummypi.iterEmits sqrt0 rng0 99 ≠ [] := by
    unfold Dummypi.iterEmits
    rw [if_pos (by norm_num : (99 + 1) % 100 = 0)]
    simp
  have hmem : (("status", pay99) : Event) ∈ Dummypi.onconnect sqrt0 rng0 := by
    unfold Dummypi.onconnect
    apply List.mem_append_left
    unfold Dummypi.loopEmits
    refine List.mem_flatMap.mpr ⟨99, List.mem_range.mpr (by norm_num), ?_⟩
    unfold Dummypi.iterEmits
    rw [if_pos (by norm_num : (99 + 1) % 100 = 0)]
    dsimp only
    rw [insideAfter_rng0 (99 + 1)]
    simp only [pay99, sqrt0, List.mem_cons]
    right
    left
    norm_num
  exact ⟨(dummypi_estimate_bounds sqrt0 rng0).1 99 hne,
    (dummypi_estimate_bounds sqrt0 rng0).2 pay99 hmem⟩

/-- C10: `App.import_analyses` never raises — missing `__author__` or
`__version__` attributes are caught, a message is printed and the
corresponding field keeps its initial `None`; a failing `import analyses`
falls back to `analyses_packaged` instead of propagating. -/
theorem import_analyses_total (env : AppPy.ImportEnv) :
    ∃ st : AppPy.ImportState,
      AppPy.import_analyses env AppPy.initialImportState = Except.ok st ∧
      (∀ m : AppPy.PyModule, env.analyses = some m →
        (m.author = none →
          st.analyses_author = none ∧ AppPy.authorMissingMsg ∈ st.printed) ∧
        (m.version = none →
          st.analyses_version = none ∧ AppPy.versionMissingMsg ∈ st.printed)) ∧
      (env.analyses = none →
        st.description = env.analyses_packaged.doc ∧
        (env.analyses_packaged.author = none → st.analyses_author = none) ∧
        (env.analyses_packaged.version = none → st.analyses_version = none)) := by
  cases henv : env.analyses with
  | some m =>
    refine ⟨AppPy.readModuleMeta m AppPy.initialImportState, ?_, ?_, ?_⟩
    · unfold AppPy.import_analyses
      rw [henv]
    · intro m2 hm2
      injection hm2 with hmm
      subst hmm
      have hf := AppPy.readModuleMeta_fields m AppPy.initialImportState
      exact ⟨fun ha => ⟨(hf.1 ha).1, (hf.1 ha).2⟩,
        fun hv => ⟨(hf.2.1 hv).1, (hf.2.1 hv).2⟩⟩
    · intro hnone
      exact absurd hnone (by simp)
  | none =>
    refine ⟨AppPy.readModuleMeta env.analyses_packaged
        { AppPy.initialImportState with
          printed := AppPy.initialImportState.printed
            ++ ["Did not find analyses module.", "Using packaged analyses."] },
      ?_, ?_, ?_⟩
    · unfold AppPy.import_analyses
      rw [henv]
    · intro m2 hm2
      exact absurd hm2 (by simp)
    · intro _
      have hf := AppPy.readModuleMeta_fields env.analyses_packaged
        { AppPy.initialImportState with
          printed := AppPy.initialImportState.printed
            ++ ["Did not find analyses module.", "Using packaged analyses."] }
      exact ⟨hf.2.2, fun ha => (hf.1 ha).1, fun hv => (hf.2.1 hv).1⟩

/-- Witness for C10 at the concrete environment `env0`. -/
theorem import_analyses_total_witness :
    ∃ st : AppPy.ImportState,
      AppPy.import_analyses env0 AppPy.initialImportState = Except.ok st ∧
      (∀ m : AppPy.PyModule, env0.analyses = some m →
        (m.author = none →
          st.analyses_author = none ∧ AppPy.authorMissingMsg ∈ st.printed) ∧
        (m.version = none →
          st.analyses_version = none ∧ AppPy.versionMissingMsg ∈ st.printed)) ∧
      (env0.analyses = none →
        st.description = env0.analyses_packaged.doc ∧
        (env0.analyses_packaged.author = none → st.analyses_author = none) ∧
        (env0.analyses_packaged.version = none → st.analyses_version = none)) :=
  import_analyses_total env0

end Databench
